import Mathlib

/-!
Verification development for the popads-sdk request core: a shallow embedding of
the response-handling path of `makeRequest` (src/utils/request.ts), the
redaction logic of `RequestLogger` (src/utils/logger.ts), the default-merging
campaign-creation path (src/clients/campaign.ts together with
src/config/defaults.ts), and the client construction / configuration sharing of
`PopAdsClient` (src/clients/popads.ts, src/clients/feed.ts,
src/clients/options.ts).

JSON values are embedded as the inductive `Json`; a JavaScript `undefined`
arising from a missing property read is represented by `Json.null` (the claims
under study never distinguish the two, and both behave identically at the one
place it matters: property access on them throws).
-/

/-- A JSON value as produced by `JSON.parse`: object fields are kept as an
ordered association list, mirroring JavaScript object key order. -/
inductive Json where
  | null : Json
  | bool (b : Bool) : Json
  | num (n : Int) : Json
  | str (s : String) : Json
  | arr (elems : List Json) : Json
  | obj (fields : List (String × Json)) : Json

/-- First-match lookup in an object's field list, mirroring JavaScript property
lookup on an object literal (keys are unique in objects built by `JSON.parse`). -/
def findVal : List (String × Json) → String → Option Json
  | [], _ => none
  | (k, v) :: rest, key => if k = key then some v else findVal rest key

/-- `v[k]` for the embedded values: `some` exactly when `v` is an object with
field `k`; every other read yields `none` (JavaScript `undefined`). -/
def getField : Json → String → Option Json
  | Json.obj fs, k => findVal fs k
  | _, _ => none

/-- ASCII lower-casing of a single character, as `String.prototype.toLowerCase`
acts on the ASCII field names found in request bodies. -/
def lowerChar (c : Char) : Char :=
  if 65 ≤ c.toNat ∧ c.toNat ≤ 90 then Char.ofNat (c.toNat + 32) else c

/-- ASCII lower-casing of a string. -/
def lowerStr (s : String) : String := String.mk (s.data.map lowerChar)

/-- Does `needle` occur as a contiguous run inside `hay`? (character lists) -/
def containsL : List Char → List Char → Bool
  | [], needle => needle.isEmpty
  | c :: t, needle => needle.isPrefixOf (c :: t) || containsL t needle

/-- `String.prototype.includes`: does `pat` occur as a substring of `s`? -/
def strContains (s pat : String) : Bool := containsL s.data pat.data

/-!
## The response-handling core of `makeRequest` (src/utils/request.ts)

`makeRequest` issues exactly one HTTP request and wires three handlers on it:
the `res.on end` handler (a complete body was received), the `req.on error`
handler (connection failure) and the `req.on timeout` handler.  The terminal
network event a call experiences is embedded as `NetEvent`; a `received` event
carries the result of `JSON.parse` on the accumulated body text
(`Except.error` holds the description of the `SyntaxError` a non-JSON body
raises).
-/

/-- The terminal network event of one call: exactly one of the three handler
registrations of `makeRequest` fires first and settles the promise. -/
inductive NetEvent where
  | received (parsed : Except String Json)
  | connError (message : String)
  | timeout

/-- The structured error `makeRequest` rejects with (class `SDKError` in
src/utils/request.ts): a status and the field-keyed message mapping.  Both are
arbitrary JSON values because the vendor branch copies `parsedData.code` and
`parsedData.messages` without validation. -/
structure SDKError where
  status : Json
  messages : Json

/-- One call into the promise machinery: `resolve(value)` or `reject(error)`. -/
inductive SettleAction where
  | resolve (value : Json)
  | rejectWith (error : SDKError)

/-- What one handler run does: the promise calls it performs, in order, and
whether it destroys the in-flight request (`req.destroy()`). -/
structure HandlerResult where
  settles : List SettleAction
  destroyed : Bool

/-- `isErrorResponse` from src/utils/request.ts: evaluates
`response.status === 'failed'`.  Reading `.status` of JSON `null` throws a
`TypeError` in JavaScript (modelled as `Except.error`); on every other value
the read is defined (possibly `undefined`) and the comparison is a plain
boolean. -/
def isErrorResponse : Json → Except String Bool
  | Json.null => Except.error "TypeError: Cannot read properties of null"
  | v =>
    match getField v "status" with
    | some (Json.str s) => Except.ok (s = "failed")
    | _ => Except.ok false

/-- Property read with JavaScript semantics on a value known not to be
null/undefined: a missing property is `undefined`, represented as `Json.null`. -/
def jsGet (v : Json) (k : String) : Json := (getField v k).getD Json.null

/-- The `SDKError(500, { error: ... })` built in the catch block of the
`res.on end` handler. -/
def invalidJsonError (description : String) : SDKError :=
  { status := Json.num 500,
    messages := Json.obj [("error", Json.str ("Invalid JSON response: " ++ description))] }

/-- The handler bodies of `makeRequest`, branch for branch:

* `received (Except.ok v)` runs the `try` block: `isErrorResponse` decides
  between the vendor-failure reject and the pass-through resolve, and a throw
  inside the `try` (JSON `null` under `isErrorResponse`) lands in the catch
  block, which rejects with the parse-error shape;
* `received (Except.error e)` is `JSON.parse` throwing, also caught by the
  catch block;
* `connError` rejects with `SDKError(500, { error: message })`;
* `timeout` calls `req.destroy()` and rejects with
  `SDKError(408, { error: 'Request timeout' })`. -/
def makeRequestOutcome : NetEvent → HandlerResult
  | NetEvent.received (Except.ok v) =>
    match isErrorResponse v with
    | Except.error e =>
      { settles := [SettleAction.rejectWith (invalidJsonError e)], destroyed := false }
    | Except.ok true =>
      { settles := [SettleAction.rejectWith { status := jsGet v "code", messages := jsGet v "messages" }],
        destroyed := false }
    | Except.ok false =>
      { settles := [SettleAction.resolve v], destroyed := false }
  | NetEvent.received (Except.error e) =>
    { settles := [SettleAction.rejectWith (invalidJsonError e)], destroyed := false }
  | NetEvent.connError m =>
    { settles := [SettleAction.rejectWith { status := Json.num 500, messages := Json.obj [("error", Json.str m)] }],
      destroyed := false }
  | NetEvent.timeout =>
    { settles := [SettleAction.rejectWith { status := Json.num 408, messages := Json.obj [("error", Json.str "Request timeout")] }],
      destroyed := true }


/-!
## Client construction and configuration sharing (src/clients/popads.ts,
src/clients/campaign.ts, src/clients/feed.ts, src/clients/options.ts)

`ClientOptions` is the partial options record supplied by the caller; `none`
models an omitted field.  The `PopAdsClient` constructor builds the resolved
record `{ debug: false, logLevel: 'info', timeout: 30000,
enableInterception: false, ...options }` and hands it to the sub-client
constructors.  The source's `FeedClient` and `OptionsClient` constructors,
however, declare only an `apiKey` parameter, so the options argument passed at
the call sites in popads.ts is dropped, and their `makeRequest` calls pass no
options at all; only `CampaignClient` stores and forwards the record.
-/

/-- The severity levels of the diagnostic logger (src/utils/logger.ts). -/
inductive LogLevel where
  | debug | info | warn | error
deriving DecidableEq

/-- The options record accepted by the clients (`ClientOptions` in
src/types/client.ts); `none` is an omitted field.  The pluggable logger is kept
opaque (only its presence matters to the behavior under study). -/
structure ClientOptions where
  debug : Option Bool := none
  logLevel : Option LogLevel := none
  logger : Option Unit := none
  baseUrl : Option String := none
  timeout : Option Nat := none
  enableInterception : Option Bool := none

/-- `CampaignClient` stores the key and the shared options record. -/
structure CampaignClient where
  apiKey : String
  options : ClientOptions

/-- `FeedClient`'s constructor signature is `constructor(apiKey: string)`:
it stores only the key (the options argument popads.ts passes is dropped). -/
structure FeedClient where
  apiKey : String

/-- `OptionsClient`'s constructor likewise takes only the key. -/
structure OptionsClient where
  apiKey : String

/-- The top-level client: the resolved options record plus the three
sub-clients built from it. -/
structure PopAdsClient where
  clientOptions : ClientOptions
  campaign : CampaignClient
  feed : FeedClient
  options : OptionsClient

/-- The `PopAdsClient` constructor: applies the defaults spread
`{ debug: false, logLevel: 'info', timeout: 30000, enableInterception: false,
...options }` and initializes the sub-clients.  `CampaignClient` receives the
shared record; `FeedClient` and `OptionsClient` discard the second constructor
argument. -/
def PopAdsClient.create (apiKey : String) (options : ClientOptions) : PopAdsClient :=
  let resolved : ClientOptions :=
    { debug := some (options.debug.getD false),
      logLevel := some (options.logLevel.getD LogLevel.info),
      logger := options.logger,
      baseUrl := options.baseUrl,
      timeout := some (options.timeout.getD 30000),
      enableInterception := some (options.enableInterception.getD false) }
  { clientOptions := resolved,
    campaign := { apiKey := apiKey, options := resolved },
    feed := { apiKey := apiKey },
    options := { apiKey := apiKey } }

/-- `setDebugMode` writes `this.clientOptions.debug = enabled`.  The record is
shared by reference with the campaign sub-client, so in this pure embedding the
write is reflected in both views; the feed and options sub-clients hold no
options to update. -/
def PopAdsClient.setDebugMode (c : PopAdsClient) (enabled : Bool) : PopAdsClient :=
  let newOpts := { c.clientOptions with debug := some enabled }
  { c with clientOptions := newOpts, campaign := { c.campaign with options := newOpts } }

/-- One outbound call as a sub-client method hands it to `makeRequest`:
the credential, endpoint, method, whether a body is attached, and the options
argument (`none` when the call site passes no options). -/
structure RequestSpec where
  apiKey : String
  endpoint : String
  method : String
  hasBody : Bool
  opts : Option ClientOptions

/-- `FeedClient.getFeed`: `makeRequest(this.apiKey, '/feed/details/' + id,
'GET')` — no options argument. -/
def FeedClient.getFeed (c : FeedClient) (feedId : Int) : RequestSpec :=
  { apiKey := c.apiKey, endpoint := "/feed/details/" ++ toString feedId,
    method := "GET", hasBody := false, opts := none }

/-- `OptionsClient.getAdBlockValues`: `makeRequest(this.apiKey,
'/options/list/ad-block', 'GET')` — no options argument. -/
def OptionsClient.getAdBlockValues (c : OptionsClient) : RequestSpec :=
  { apiKey := c.apiKey, endpoint := "/options/list/ad-block",
    method := "GET", hasBody := false, opts := none }

/-- `CampaignClient.getCampaign`: `makeRequest(this.apiKey,
'/campaign/details/' + id, 'GET', undefined, this.options)`. -/
def CampaignClient.getCampaign (c : CampaignClient) (campaignId : Int) : RequestSpec :=
  { apiKey := c.apiKey, endpoint := "/campaign/details/" ++ toString campaignId,
    method := "GET", hasBody := false, opts := some c.options }

/-- The timeout `makeRequest` configures: `options?.timeout || 30000`
(both an absent record, an absent field and a zero value fall back, `||` being
a truthiness test). -/
def effectiveTimeout (o : Option ClientOptions) : Nat :=
  let t := (o.bind (·.timeout)).getD 0
  if t = 0 then 30000 else t

/-- The base URL `makeRequest` targets: `options?.baseUrl ||
'https://www.popads.net/apiv2'`. -/
def effectiveBaseUrl (o : Option ClientOptions) : String :=
  let s := (o.bind (·.baseUrl)).getD ""
  if s = "" then "https://www.popads.net/apiv2" else s

/-- The request-logger gate of `makeRequest`:
`options?.debug || options?.enableInterception` decides whether a
`RequestLogger` is constructed at all; with neither flag set the logger is
`null` and no request logging happens. -/
def requestLoggerActive (o : Option ClientOptions) : Bool :=
  match o with
  | none => false
  | some c => c.debug.getD false || c.enableInterception.getD false

/-- The severity `logRequestComplete` emits at (src/utils/logger.ts): the
branches of `makeRequest` pass an error for every outcome except the
pass-through resolve, and `logRequestComplete` uses `logger.error` exactly when
an error is passed, `logger.debug` otherwise. -/
def completionLevel (ev : NetEvent) : LogLevel :=
  match ev with
  | NetEvent.received (Except.ok v) =>
    match isErrorResponse v with
    | Except.ok false => LogLevel.debug
    | _ => LogLevel.error
  | _ => LogLevel.error

/-- The base-logger calls one `makeRequest` run hands to the request logger:
`logRequestStart` (severity debug) at the top, then `logRequestComplete` in the
terminal handler — or nothing at all when the gate is off. -/
def requestLogEmissions (o : Option ClientOptions) (ev : NetEvent) : List LogLevel :=
  if requestLoggerActive o then [LogLevel.debug, completionLevel ev] else []

/-!
## Claims about the request executor
-/

/-- C1: For every terminal network event, the `makeRequest` handler that fires
performs exactly one promise settlement — one `resolve` or one `reject`, never
both and never neither — so the returned promise settles in exactly one of the
two terminal states. -/
theorem makeRequest_settles_exactly_once (ev : NetEvent) :
    (makeRequestOutcome ev).settles.length = 1 ∧
      ∀ v e, ¬ (SettleAction.resolve v ∈ (makeRequestOutcome ev).settles ∧
                SettleAction.rejectWith e ∈ (makeRequestOutcome ev).settles) := by
  cases ev with
  | received pr =>
    cases pr with
    | ok v =>
      cases h : isErrorResponse v with
      | ok b => cases b <;> simp [makeRequestOutcome, h]
      | error e => simp [makeRequestOutcome, h]
    | error e => simp [makeRequestOutcome]
  | connError m => simp [makeRequestOutcome]
  | timeout => simp [makeRequestOutcome]

/-- C2: a received body parsing to a value whose `status` field is the string
`"failed"` makes `makeRequest` reject with an `SDKError` whose status is the
vendor's `code` field and whose messages are the vendor's `messages` mapping. -/
theorem makeRequest_failed_status_rejects (v : Json)
    (h : getField v "status" = some (Json.str "failed")) :
    makeRequestOutcome (NetEvent.received (Except.ok v)) =
      { settles := [SettleAction.rejectWith { status := jsGet v "code", messages := jsGet v "messages" }],
        destroyed := false } := by
  have hv : isErrorResponse v = Except.ok true := by
    cases v with
    | null => simp [getField] at h
    | obj fs => simp [isErrorResponse, h]
    | bool b => simp [getField] at h
    | num n => simp [getField] at h
    | str s => simp [getField] at h
    | arr es => simp [getField] at h
  simp [makeRequestOutcome, hv]

/-- C2 witness: the body `{"status":"failed","code":404,"messages":{"id":["not
found"]}}` rejects with status 404 and messages `{id:["not found"]}`. -/
theorem makeRequest_failed_status_rejects_witness :
    getField (Json.obj [("status", Json.str "failed"), ("code", Json.num 404),
        ("messages", Json.obj [("id", Json.arr [Json.str "not found"])])]) "status" =
      some (Json.str "failed") ∧
    makeRequestOutcome (NetEvent.received (Except.ok (Json.obj [("status", Json.str "failed"),
        ("code", Json.num 404), ("messages", Json.obj [("id", Json.arr [Json.str "not found"])])]))) =
      { settles := [SettleAction.rejectWith { status := Json.num 404,
                                               messages := Json.obj [("id", Json.arr [Json.str "not found"])] }],
        destroyed := false } :=
  ⟨rfl, makeRequest_failed_status_rejects _ rfl⟩

/-- C4: the timeout handler destroys the in-flight request and rejects with an
`SDKError` of status 408 whose single message `"Request timeout"` contains the
word `"timeout"`. -/
theorem makeRequest_timeout_aborts_and_rejects_408 :
    (makeRequestOutcome NetEvent.timeout).destroyed = true ∧
    (makeRequestOutcome NetEvent.timeout).settles =
      [SettleAction.rejectWith { status := Json.num 408,
                                 messages := Json.obj [("error", Json.str "Request timeout")] }] ∧
    strContains "Request timeout" "timeout" = true :=
  ⟨rfl, rfl, by decide⟩

/-- C8: a connection-level error rejects with an `SDKError` of status 500
carrying the single message mapping `{ error: <underlying description> }`, and
a body that fails to parse rejects with an `SDKError` of status 500 carrying
the single message `"Invalid JSON response: <description>"`. -/
theorem makeRequest_conn_and_parse_errors_reject_500 (m e : String) :
    makeRequestOutcome (NetEvent.connError m) =
      { settles := [SettleAction.rejectWith { status := Json.num 500,
                                               messages := Json.obj [("error", Json.str m)] }],
        destroyed := false } ∧
    makeRequestOutcome (NetEvent.received (Except.error e)) =
      { settles := [SettleAction.rejectWith { status := Json.num 500,
                                               messages := Json.obj [("error", Json.str ("Invalid JSON response: " ++ e))] }],
        destroyed := false } :=
  ⟨rfl, rfl⟩

/-- C10: a received body that is the valid JSON text `null` parses to
`Json.null`; the failure-sentinel inspection throws, the catch block absorbs
the throw, and the call rejects with a status-500 `SDKError` whose single
message describes an invalid JSON response — the call never resolves. -/
theorem makeRequest_null_body_rejects_500 :
    makeRequestOutcome (NetEvent.received (Except.ok Json.null)) =
      { settles := [SettleAction.rejectWith { status := Json.num 500,
                                               messages := Json.obj [("error",
                                                 Json.str "Invalid JSON response: TypeError: Cannot read properties of null")] }],
        destroyed := false } ∧
    (∀ w, SettleAction.resolve w ∉ (makeRequestOutcome (NetEvent.received (Except.ok Json.null))).settles) ∧
    strContains "Invalid JSON response: TypeError: Cannot read properties of null"
        "Invalid JSON response" = true := by
  refine ⟨rfl, ?_, by decide⟩
  intro w hmem
  simp [makeRequestOutcome, isErrorResponse, invalidJsonError] at hmem

/-- C7 counterexample: `Json.null` is a parsed value whose `status` field is
not the failure sentinel, yet the call does not resolve (it rejects via the
catch block), refuting the claim as stated for the body `"null"`. -/
theorem makeRequest_nonfailed_passthrough_counterexample :
    getField Json.null "status" ≠ some (Json.str "failed") ∧
    (∀ w, SettleAction.resolve w ∉ (makeRequestOutcome (NetEvent.received (Except.ok Json.null))).settles) := by
  constructor
  · simp [getField]
  · intro w hmem
    simp [makeRequestOutcome, isErrorResponse, invalidJsonError] at hmem

/-- C7 (amended): a received body parsing to a non-null value whose `status`
field is not the failure sentinel resolves with exactly that parsed value,
unmodified — no schema validation happens. -/
theorem makeRequest_nonfailed_passthrough (v : Json) (hnull : v ≠ Json.null)
    (h : getField v "status" ≠ some (Json.str "failed")) :
    makeRequestOutcome (NetEvent.received (Except.ok v)) =
      { settles := [SettleAction.resolve v], destroyed := false } := by
  have hv : isErrorResponse v = Except.ok false := by
    cases v with
    | null => exact absurd rfl hnull
    | obj fs =>
      simp only [isErrorResponse, getField]
      cases hf : findVal fs "status" with
      | none => rfl
      | some w =>
        cases w with
        | str s =>
          have hs : ¬ s = "failed" := by
            intro hEq; subst hEq
            exact h (by simpa [getField] using hf)
          simp [hs]
        | null => rfl
        | bool b => rfl
        | num n => rfl
        | arr es => rfl
        | obj gs => rfl
    | bool b => rfl
    | num n => rfl
    | str s => rfl
    | arr es => rfl
  simp [makeRequestOutcome, hv]

/-- C7 witness: the success body
`{"status":"success","code":200,"records":1,"data":{"campaign":{"id":123}}}`
resolves with exactly that payload. -/
theorem makeRequest_nonfailed_passthrough_witness :
    (Json.obj [("status", Json.str "success"), ("code", Json.num 200),
        ("records", Json.num 1),
        ("data", Json.obj [("campaign", Json.obj [("id", Json.num 123)])])]) ≠ Json.null ∧
    getField (Json.obj [("status", Json.str "success"), ("code", Json.num 200),
        ("records", Json.num 1),
        ("data", Json.obj [("campaign", Json.obj [("id", Json.num 123)])])]) "status" ≠
      some (Json.str "failed") ∧
    makeRequestOutcome (NetEvent.received (Except.ok (Json.obj [("status", Json.str "success"),
        ("code", Json.num 200), ("records", Json.num 1),
        ("data", Json.obj [("campaign", Json.obj [("id", Json.num 123)])])]))) =
      { settles := [SettleAction.resolve (Json.obj [("status", Json.str "success"),
          ("code", Json.num 200), ("records", Json.num 1),
          ("data", Json.obj [("campaign", Json.obj [("id", Json.num 123)])])])],
        destroyed := false } := by
  refine ⟨fun hEq => Json.noConfusion hEq, ?_, ?_⟩
  · intro hEq
    simp [getField, findVal] at hEq
  · exact makeRequest_nonfailed_passthrough _ (fun hEq => Json.noConfusion hEq)
      (by intro hEq; simp [getField, findVal] at hEq)

/-!
## Claims about configuration sharing and logging
-/

/-- C5 (divergence witness): constructing the top-level client with
`timeout: 5000` and issuing calls through the sub-clients.  The campaign
sub-client carries the shared configuration and its call uses the configured
timeout; the feed and options sub-clients pass no options to `makeRequest`, so
their calls run with the default timeout (and default base URL), contradicting
the claim that every sub-client call uses the shared configuration. -/
theorem feed_and_options_clients_drop_configuration :
    ((PopAdsClient.create "k" { timeout := some 5000 }).feed.getFeed 1).opts = none ∧
    effectiveTimeout (((PopAdsClient.create "k" { timeout := some 5000 }).feed.getFeed 1).opts) = 30000 ∧
    ((PopAdsClient.create "k" { timeout := some 5000 }).options.getAdBlockValues).opts = none ∧
    ((PopAdsClient.create "k" { timeout := some 5000 }).campaign.getCampaign 1).opts =
      some (PopAdsClient.create "k" { timeout := some 5000 }).clientOptions ∧
    effectiveTimeout (((PopAdsClient.create "k" { timeout := some 5000 }).campaign.getCampaign 1).opts) = 5000 :=
  ⟨rfl, rfl, rfl, rfl, rfl⟩

/-- C9 counterexample: after `setDebugMode(false)` on a constructed client
(interception not enabled), a failed request through the campaign sub-client
emits no log entries at all — in particular no error-level entry — refuting
the claim that error-level emissions are unaffected and still emitted. -/
theorem setDebugMode_false_drops_error_logs :
    requestLogEmissions
        (some ((PopAdsClient.create "k" { debug := some true }).setDebugMode false).campaign.options)
        (NetEvent.connError "ECONNREFUSED") = [] ∧
    LogLevel.error ∉
      requestLogEmissions
        (some ((PopAdsClient.create "k" { debug := some true }).setDebugMode false).campaign.options)
        (NetEvent.connError "ECONNREFUSED") := by
  refine ⟨rfl, ?_⟩
  intro hmem
  simp [requestLogEmissions, requestLoggerActive, PopAdsClient.create,
    PopAdsClient.setDebugMode] at hmem

/-- C9 (amended): after `setDebugMode(false)` on a client constructed without
interception, every subsequent request (whatever its terminal event, and
through any sub-client) performs no request logging at all: both debug-level
and error-level request log emissions are suppressed, because the
`RequestLogger` gate in `makeRequest` is off. -/
theorem setDebugMode_false_suppresses_all_request_logs
    (apiKey : String) (o : ClientOptions) (ev : NetEvent)
    (h : o.enableInterception = none ∨ o.enableInterception = some false) :
    requestLogEmissions
        (some ((PopAdsClient.create apiKey o).setDebugMode false).campaign.options) ev = [] ∧
    requestLogEmissions ((((PopAdsClient.create apiKey o).setDebugMode false).feed.getFeed 1).opts) ev = [] := by
  have hI : o.enableInterception.getD false = false := by
    rcases h with h | h <;> simp [h]
  constructor
  · simp [requestLogEmissions, requestLoggerActive, PopAdsClient.create,
      PopAdsClient.setDebugMode, hI]
  · simp [requestLogEmissions, requestLoggerActive, PopAdsClient.create,
      PopAdsClient.setDebugMode, FeedClient.getFeed]

/-- C9 witness for the amended claim, at the default options record and a
failing terminal event. -/
theorem setDebugMode_false_suppresses_all_request_logs_witness :
    (({} : ClientOptions).enableInterception = none ∨
      ({} : ClientOptions).enableInterception = some false) ∧
    requestLogEmissions
        (some ((PopAdsClient.create "k" {}).setDebugMode false).campaign.options)
        (NetEvent.connError "boom") = [] :=
  ⟨Or.inl rfl,
    (setDebugMode_false_suppresses_all_request_logs "k" {} (NetEvent.connError "boom") (Or.inl rfl)).1⟩

/-!
## Redaction (`RequestLogger` in src/utils/logger.ts)

`sanitizeRequestBody` returns non-objects unchanged and otherwise deep-copies
the body (`JSON.parse(JSON.stringify(body))` — the identity on the values
embedded here) before destructively redacting the copy with
`removeSensitiveFields`; the caller's structure is never touched, which the
pure embedding reflects by construction.  `removeSensitiveFields` walks the
structure: a field whose lower-cased key contains one of the sensitive
substrings is overwritten with `'[REDACTED]'`; any other object-valued entry
(including array elements, whose keys are the digit strings of their indices
and never match) is walked recursively; scalars are left alone.
-/

/-- The sensitive-substring list of `removeSensitiveFields`. -/
def sensitiveFields : List String := ["password", "token", "key", "secret", "api_key"]

/-- Does a field name match the redaction rule
`key.toLowerCase().includes(field)`? -/
def isSensitive (k : String) : Bool :=
  sensitiveFields.any (fun f => strContains (lowerStr k) f)

mutual

/-- The effect of `removeSensitiveFields` on one value, written as a pure
function on the copy: objects and arrays are rebuilt with their entries
redacted, everything else is returned unchanged (the JavaScript guard
`typeof value === 'object' && value !== null`). -/
def removeSensitiveFields : Json → Json
  | Json.obj fs => Json.obj (redactFields fs)
  | Json.arr es => Json.arr (redactElems es)
  | v => v

/-- Field-list walk: a sensitive key's value becomes `'[REDACTED]'` (whatever
it was); other entries keep their key and are walked recursively. -/
def redactFields : List (String × Json) → List (String × Json)
  | [] => []
  | (k, v) :: rest =>
    (k, if isSensitive k then Json.str "[REDACTED]" else removeSensitiveFields v) :: redactFields rest

/-- Array walk: `Object.entries` lists elements under their index strings,
which never match a sensitive substring, so every element is walked. -/
def redactElems : List Json → List Json
  | [] => []
  | v :: rest => removeSensitiveFields v :: redactElems rest

end

/-- `sanitizeRequestBody`: non-objects pass through; objects are deep-copied
and redacted (the guard and the copy are both absorbed by
`removeSensitiveFields` being the identity on non-objects and the embedding
being pure). -/
def sanitizeRequestBody (body : Json) : Json := removeSensitiveFields body

/-- A step into a structured value: an object key or an array index. -/
inductive PathElem where
  | key (k : String)
  | idx (i : Nat)

/-- Path lookup through objects and arrays. -/
def getP : Json → List PathElem → Option Json
  | v, [] => some v
  | Json.obj fs, PathElem.key k :: rest =>
    match findVal fs k with
    | some v => getP v rest
    | none => none
  | Json.arr es, PathElem.idx i :: rest =>
    match es[i]? with
    | some v => getP v rest
    | none => none
  | _, _ => none

/-- A path step that the redaction walk descends through: array indices
always, object keys only when not sensitive (a sensitive key's whole subtree
is overwritten instead). -/
def cleanStep : PathElem → Bool
  | PathElem.key k => !(isSensitive k)
  | PathElem.idx _ => true

/-- No sensitive key anywhere along the path. -/
def cleanPath (p : List PathElem) : Bool := p.all cleanStep

/-- Scalar JSON values (those `removeSensitiveFields` leaves alone). -/
def isScalar : Json → Bool
  | Json.null => true
  | Json.bool _ => true
  | Json.num _ => true
  | Json.str _ => true
  | _ => false

theorem findVal_redactFields (fs : List (String × Json)) (k : String) :
    findVal (redactFields fs) k =
      (findVal fs k).map
        (fun v => if isSensitive k then Json.str "[REDACTED]" else removeSensitiveFields v) := by
  induction fs with
  | nil => rfl
  | cons kv rest ih =>
    obtain ⟨k₀, v₀⟩ := kv
    by_cases hk : k₀ = k
    · subst hk; simp [redactFields, findVal]
    · simp [redactFields, findVal, hk, ih]

theorem getElem_redactElems (es : List Json) (i : Nat) :
    (redactElems es)[i]? = (es[i]?).map removeSensitiveFields := by
  induction es generalizing i with
  | nil => simp [redactElems]
  | cons v rest ih =>
    cases i with
    | zero => simp [redactElems]
    | succ j => simpa [redactElems] using ih j

/-- A sensitive key that survives to the output (no sensitive ancestor on its
path) has its value replaced by the redaction marker. -/
theorem getP_redact_sensitive (p : List PathElem) :
    ∀ (body : Json) (k : String) (v : Json), cleanPath p = true → isSensitive k = true →
      getP body (p ++ [PathElem.key k]) = some v →
      getP (removeSensitiveFields body) (p ++ [PathElem.key k]) = some (Json.str "[REDACTED]") := by
  induction p with
  | nil =>
    intro body k v _ hk h
    cases body with
    | obj fs =>
      simp only [List.nil_append, getP] at h ⊢
      simp only [removeSensitiveFields, getP, findVal_redactFields]
      cases hf : findVal fs k with
      | none => simp [hf] at h
      | some w => simp [hk, getP]
    | null => simp [getP] at h
    | bool b => simp [getP] at h
    | num n => simp [getP] at h
    | str s => simp [getP] at h
    | arr es => simp [getP] at h
  | cons e rest ih =>
    intro body k v hp hk h
    have hstep : cleanStep e = true ∧ cleanPath rest = true := by
      simpa [cleanPath] using hp
    cases e with
    | key k₀ =>
      cases body with
      | obj fs =>
        simp only [List.cons_append, getP] at h ⊢
        simp only [removeSensitiveFields, getP, findVal_redactFields]
        cases hf : findVal fs k₀ with
        | none => simp [hf] at h
        | some w =>
          simp only [hf] at h
          have hks : isSensitive k₀ = false := by
            have := hstep.1
            simpa [cleanStep] using this
          simp only [Option.map_some, hks, if_neg (by simp [hks] : ¬ isSensitive k₀ = true)]
          exact ih w k v hstep.2 hk h
      | null => simp [getP] at h
      | bool b => simp [getP] at h
      | num n => simp [getP] at h
      | str s => simp [getP] at h
      | arr es => simp [getP] at h
    | idx i =>
      cases body with
      | arr es =>
        simp only [List.cons_append, getP] at h ⊢
        simp only [removeSensitiveFields, getP, getElem_redactElems]
        cases hf : es[i]? with
        | none => simp [hf] at h
        | some w =>
          simp only [hf] at h
          show getP (removeSensitiveFields w) (rest ++ [PathElem.key k]) = some (Json.str "[REDACTED]")
          exact ih w k v hstep.2 hk h
      | null => simp [getP] at h
      | bool b => simp [getP] at h
      | num n => simp [getP] at h
      | str s => simp [getP] at h
      | obj fs => simp [getP] at h

/-- A scalar reached through a path with no sensitive key is unchanged by the
redaction walk. -/
theorem getP_redact_clean_scalar (p : List PathElem) :
    ∀ (body v : Json), cleanPath p = true → isScalar v = true →
      getP body p = some v → getP (removeSensitiveFields body) p = some v := by
  induction p with
  | nil =>
    intro body v _ hv h
    simp only [getP] at h ⊢
    obtain rfl : body = v := by injection h
    cases body with
    | null => rfl
    | bool b => rfl
    | num n => rfl
    | str s => rfl
    | arr es => simp [isScalar] at hv
    | obj fs => simp [isScalar] at hv
  | cons e rest ih =>
    intro body v hp hv h
    have hstep : cleanStep e = true ∧ cleanPath rest = true := by
      simpa [cleanPath] using hp
    cases e with
    | key k₀ =>
      cases body with
      | obj fs =>
        simp only [getP] at h ⊢
        simp only [removeSensitiveFields, getP, findVal_redactFields]
        cases hf : findVal fs k₀ with
        | none => simp [hf] at h
        | some w =>
          simp only [hf] at h
          have hks : isSensitive k₀ = false := by
            have := hstep.1
            simpa [cleanStep] using this
          simp only [Option.map_some, hks, if_neg (by simp [hks] : ¬ isSensitive k₀ = true)]
          exact ih w v hstep.2 hv h
      | null => simp [getP] at h
      | bool b => simp [getP] at h
      | num n => simp [getP] at h
      | str s => simp [getP] at h
      | arr es => simp [getP] at h
    | idx i =>
      cases body with
      | arr es =>
        simp only [getP] at h ⊢
        simp only [removeSensitiveFields, getP, getElem_redactElems]
        cases hf : es[i]? with
        | none => simp [hf] at h
        | some w =>
          simp only [hf] at h
          show getP (removeSensitiveFields w) rest = some v
          exact ih w v hstep.2 hv h
      | null => simp [getP] at h
      | bool b => simp [getP] at h
      | num n => simp [getP] at h
      | str s => simp [getP] at h
      | obj fs => simp [getP] at h

/-- C6: the representation `sanitizeRequestBody` emits for logging replaces
the value of every key whose lower-cased name contains one of the sensitive
substrings (wherever it survives to the output, i.e. under no sensitive
ancestor) with the fixed marker `'[REDACTED]'`, and leaves every scalar field
reached through non-sensitive keys unchanged; the walk operates on a copy in
the source and on pure values here, so the caller's body is never mutated. -/
theorem sanitizeRequestBody_redacts (body : Json) (p : List PathElem) :
    (∀ (k : String) (v : Json), cleanPath p = true → isSensitive k = true →
       getP body (p ++ [PathElem.key k]) = some v →
       getP (sanitizeRequestBody body) (p ++ [PathElem.key k]) = some (Json.str "[REDACTED]")) ∧
    (∀ v : Json, cleanPath p = true → isScalar v = true →
       getP body p = some v → getP (sanitizeRequestBody body) p = some v) :=
  ⟨fun k v hp hk h => getP_redact_sensitive p body k v hp hk h,
   fun v hp hv h => getP_redact_clean_scalar p body v hp hv h⟩

/-- C6 witness: logging `{api_key:"secret123", general_information:{name:"X"}}`
emits `api_key` as the redaction marker and keeps
`general_information.name = "X"`. -/
theorem sanitizeRequestBody_redacts_witness :
    isSensitive "api_key" = true ∧
    getP (sanitizeRequestBody (Json.obj [("api_key", Json.str "secret123"),
        ("general_information", Json.obj [("name", Json.str "X")])]))
      [PathElem.key "api_key"] = some (Json.str "[REDACTED]") ∧
    getP (sanitizeRequestBody (Json.obj [("api_key", Json.str "secret123"),
        ("general_information", Json.obj [("name", Json.str "X")])]))
      [PathElem.key "general_information", PathElem.key "name"] = some (Json.str "X") :=
  ⟨by decide,
   (sanitizeRequestBody_redacts (Json.obj [("api_key", Json.str "secret123"),
        ("general_information", Json.obj [("name", Json.str "X")])]) []).1
     "api_key" (Json.str "secret123") rfl (by decide) rfl,
   (sanitizeRequestBody_redacts (Json.obj [("api_key", Json.str "secret123"),
        ("general_information", Json.obj [("name", Json.str "X")])])
       [PathElem.key "general_information", PathElem.key "name"]).2
     (Json.str "X") (by decide) rfl rfl⟩

/-!
## Default merging (`CampaignClient.createCampaign`, src/clients/campaign.ts,
with `CAMPAIGN_DEFAULTS` from src/config/defaults.ts)

`createCampaign` builds `merge({}, CAMPAIGN_DEFAULTS, data)` with
`lodash.merge` and sends the result as the request body.  `lodash.merge`
iterates the source's own keys and assigns them into the destination:
plain-object sources merge key-recursively, array sources merge index-wise
into an array destination (keeping the destination's longer tail) and replace
a non-array destination wholesale, and every other source value (including
`null`) is assigned as-is.  The one degenerate pairing — a plain-object source
over an array destination — has lodash graft named keys onto the array, which
`JSON.stringify` then drops from the request body; the embedding keeps the
destination array, and the claims below exclude the pairing by hypothesis
(the typed `CampaignCreateRequest` payloads never produce it).  The
destination is always a fresh `{}` here and cloning is the identity on pure
values, so neither input is disturbed — reflected by `mergeJson` being a pure
function of the two inputs.
-/

theorem sizeOf_findVal {fs : List (String × Json)} {k : String} {v : Json}
    (h : findVal fs k = some v) : sizeOf v < sizeOf fs := by
  induction fs with
  | nil => simp [findVal] at h
  | cons kv rest ih =>
    obtain ⟨k₀, v₀⟩ := kv
    by_cases hk : k₀ = k
    · rw [findVal, if_pos hk] at h
      obtain rfl : v₀ = v := by injection h
      simp only [List.cons.sizeOf_spec, Prod.mk.sizeOf_spec]
      omega
    · rw [findVal, if_neg hk] at h
      have := ih h
      simp only [List.cons.sizeOf_spec, Prod.mk.sizeOf_spec]
      omega

mutual

/-- `lodash.merge` restricted to JSON values: `mergeJson d s` is the value the
destination holds after `s` is merged over `d`. -/
def mergeJson : Json → Json → Json
  | Json.obj df, Json.obj sf =>
    Json.obj (mergeOld df sf ++ sf.filter (fun kv => (findVal df kv.1).isNone))
  | Json.arr da, Json.obj _ => Json.arr da
  | Json.null, Json.obj sf => Json.obj sf
  | Json.bool _, Json.obj sf => Json.obj sf
  | Json.num _, Json.obj sf => Json.obj sf
  | Json.str _, Json.obj sf => Json.obj sf
  | Json.arr da, Json.arr sa => Json.arr (mergeList da sa)
  | Json.null, Json.arr sa => Json.arr sa
  | Json.bool _, Json.arr sa => Json.arr sa
  | Json.num _, Json.arr sa => Json.arr sa
  | Json.str _, Json.arr sa => Json.arr sa
  | Json.obj _, Json.arr sa => Json.arr sa
  | _, Json.null => Json.null
  | _, Json.bool b => Json.bool b
  | _, Json.num n => Json.num n
  | _, Json.str s => Json.str s
termination_by d s => sizeOf d + sizeOf s
decreasing_by
  all_goals simp_wf
  all_goals omega

/-- The destination's existing fields after the merge: a field whose key also
appears in the source is merged with the source's value, the rest keep their
values.  (Fields of the source absent from the destination are appended by the
`filter` in `mergeJson`.) -/
def mergeOld : List (String × Json) → List (String × Json) → List (String × Json)
  | [], _ => []
  | (k, dv) :: rest, sf =>
    (k, match h : findVal sf k with
        | some sv => mergeJson dv sv
        | none => dv) :: mergeOld rest sf
termination_by df sf => sizeOf df + sizeOf sf
decreasing_by
  all_goals simp_wf
  all_goals try omega
  all_goals
    have hlt := sizeOf_findVal h
    omega

/-- Index-wise array merge: corresponding elements are merged, the longer
tail survives. -/
def mergeList : List Json → List Json → List Json
  | ds, [] => ds
  | [], ss => ss
  | d :: ds, s :: ss => mergeJson d s :: mergeList ds ss
termination_by ds ss => sizeOf ds + sizeOf ss
decreasing_by
  all_goals simp_wf
  all_goals omega

end

/-- The static defaults template `CAMPAIGN_DEFAULTS` (src/config/defaults.ts),
transcribed field for field.  Every array in it is empty. -/
def CAMPAIGN_DEFAULTS : Json :=
  Json.obj
    [("general_information", Json.obj
        [("minimum_quality", Json.num 1),
         ("minimum_quality_mode", Json.str "minimum"),
         ("frequency_cap", Json.obj
            [("days", Json.num 1), ("hours", Json.num 0), ("minutes", Json.num 0)]),
         ("after_approval", Json.num 1),
         ("primespot", Json.str "all"),
         ("adult", Json.bool false),
         ("referrer", Json.num 0),
         ("ad_block", Json.str "all"),
         ("incognito", Json.str "all"),
         ("ad_type", Json.str "popunder"),
         ("ad_type_other", Json.bool true)]),
     ("budget", Json.obj [("max_per_day", Json.num 0)]),
     ("categories", Json.obj
        [("list", Json.arr []), ("include_subcategories", Json.bool true)]),
     ("countries", Json.obj [("regions", Json.arr [])]),
     ("society", Json.obj
        [("language_mode", Json.str "any"),
         ("languages", Json.arr []),
         ("populations", Json.arr [])]),
     ("environment", Json.obj
        [("os", Json.arr []), ("browser", Json.arr []), ("resolutions", Json.arr [])]),
     ("device", Json.obj
        [("device", Json.arr []), ("request_as_desktop", Json.num 1)]),
     ("connections", Json.obj
        [("conntype", Json.arr []),
         ("connspeed", Json.arr []),
         ("internet_service_providers", Json.arr [])]),
     ("website_targeting", Json.obj [("type", Json.str "none")]),
     ("adscore", Json.obj
        [("valid_traffic", Json.num 1),
         ("proxy_traffic", Json.num 0),
         ("junk_traffic", Json.num 0),
         ("bot_traffic", Json.num 0),
         ("compliance", Json.num 1),
         ("compliance_intelligence", Json.num 1)])]

/-- The request body `CampaignClient.createCampaign` sends:
`merge({}, CAMPAIGN_DEFAULTS, data)` — the defaults merged into a fresh
object, the user payload merged over them. -/
def createCampaignRequestData (data : Json) : Json :=
  mergeJson (mergeJson (Json.obj []) CAMPAIGN_DEFAULTS) data

/-- Lookup along a path of object keys. -/
def getPath : Json → List String → Option Json
  | v, [] => some v
  | v, k :: rest =>
    match v with
    | Json.obj fs =>
      (match findVal fs k with
       | some w => getPath w rest
       | none => none)
    | _ => none

/-- Along the path, the template and the user payload never pair an array
(template side) with an object (user side) — the one pairing on which
`lodash.merge` grafts keys onto an array instead of replacing it.  Payloads of
the typed `CampaignCreateRequest` shape always satisfy this against
`CAMPAIGN_DEFAULTS`. -/
def noClash : Json → Json → List String → Bool
  | t, u, [] =>
    (match t, u with
     | Json.arr _, Json.obj _ => false
     | _, _ => true)
  | t, u, k :: rest =>
    (match t, u with
     | Json.arr _, Json.obj _ => false
     | Json.obj tf, Json.obj uf =>
       (match findVal tf k, findVal uf k with
        | some tv, some uv => noClash tv uv rest
        | _, _ => true)
     | _, _ => true)

/-- The user payload descends along the path only through objects: wherever it
has a value at a proper prefix of the path, that value is an object.  (A
non-object value there would win wholesale and cut the template's subtree off,
which is the claim's "field present in the user payload" case, not its
"absent" case.) -/
def objSpine : Json → List String → Bool
  | _, [] => true
  | u, k :: rest =>
    (match u with
     | Json.obj fs =>
       (match findVal fs k with
        | some v => objSpine v rest
        | none => true)
     | _ => false)

/-- Scalars, arrays and objects all satisfy: looking a key up in the merged
field list is the merge of the individual lookups. -/
theorem findVal_append (a b : List (String × Json)) (k : String) :
    findVal (a ++ b) k =
      match findVal a k with
      | some v => some v
      | none => findVal b k := by
  induction a with
  | nil => simp [findVal]
  | cons kv rest ih =>
    obtain ⟨k₀, v₀⟩ := kv
    by_cases hk : k₀ = k
    · simp [findVal, hk]
    · simp [findVal, hk, ih]

theorem findVal_mergeOld (df sf : List (String × Json)) (k : String) :
    findVal (mergeOld df sf) k =
      (findVal df k).map (fun dv =>
        match findVal sf k with
        | some sv => mergeJson dv sv
        | none => dv) := by
  induction df with
  | nil => simp [mergeOld, findVal]
  | cons kv rest ih =>
    obtain ⟨k₀, v₀⟩ := kv
    by_cases hk : k₀ = k
    · subst hk
      simp only [mergeOld, findVal]
      cases hs : findVal sf k₀ <;> simp [hs]
    · simp only [mergeOld, findVal, if_neg hk, ih]

theorem findVal_filter_isNone (df sf : List (String × Json)) (k : String)
    (h : findVal df k = none) :
    findVal (sf.filter (fun kv => (findVal df kv.1).isNone)) k = findVal sf k := by
  induction sf with
  | nil => simp
  | cons kv rest ih =>
    obtain ⟨k₀, v₀⟩ := kv
    by_cases hk : k₀ = k
    · subst hk
      simp [List.filter, h, findVal, ih]
    · by_cases hkeep : (findVal df k₀).isNone
      · simp [List.filter, hkeep, findVal, hk, ih]
      · simp [List.filter, hkeep, findVal, hk, ih]

/-- The single-key characterization of the object-object merge. -/
theorem findVal_mergeFields (df sf : List (String × Json)) (k : String) :
    findVal (mergeOld df sf ++ sf.filter (fun kv => (findVal df kv.1).isNone)) k =
      match findVal df k, findVal sf k with
      | some dv, some sv => some (mergeJson dv sv)
      | some dv, none => some dv
      | none, r => r := by
  rw [findVal_append, findVal_mergeOld]
  cases hd : findVal df k with
  | some dv =>
    cases hs : findVal sf k with
    | some sv => simp [hs]
    | none => simp [hs]
  | none =>
    simp only [Option.map_none]
    exact findVal_filter_isNone df sf k hd

/-- Merging any source over a fresh empty object clones the source: this is
the inner `merge({}, CAMPAIGN_DEFAULTS)` step. -/
theorem mergeJson_emptyDest (s : Json) : mergeJson (Json.obj []) s = s := by
  cases s with
  | obj sf =>
    have hfil : sf.filter (fun kv => (findVal ([] : List (String × Json)) kv.1).isNone) = sf := by
      induction sf with
      | nil => rfl
      | cons kv rest ih => simp [List.filter, findVal, ih]
    simp [mergeJson, mergeOld, hfil]
  | arr sa => simp [mergeJson]
  | null => simp [mergeJson]
  | bool b => simp [mergeJson]
  | num n => simp [mergeJson]
  | str s => simp [mergeJson]

/-- A scalar source value is assigned wholesale, whatever the destination. -/
theorem mergeJson_scalar (d s : Json) (hs : isScalar s = true) : mergeJson d s = s := by
  cases s with
  | null => cases d <;> simp [mergeJson]
  | bool b => cases d <;> simp [mergeJson]
  | num n => cases d <;> simp [mergeJson]
  | str t => cases d <;> simp [mergeJson]
  | arr es => simp [isScalar] at hs
  | obj fs => simp [isScalar] at hs

/-- C3 part one, generalized: wherever the user payload has a value (and the
path is clash-free), the merged body holds the user's value, merged over the
template's value at the same path when the template has one. -/
theorem getPath_merge_user (p : List String) :
    ∀ (t u uv : Json), getPath u p = some uv → noClash t u p = true →
      getPath (mergeJson t u) p =
        some ((getPath t p).elim uv (fun tv => mergeJson tv uv)) := by
  induction p with
  | nil =>
    intro t u uv h _
    simp only [getPath] at h
    obtain rfl : u = uv := by injection h
    rfl
  | cons k rest ih =>
    intro t u uv h hc
    cases u with
    | obj uf =>
      simp only [getPath] at h
      cases hu : findVal uf k with
      | none => simp [hu] at h
      | some u₁ =>
        simp only [hu] at h
        cases t with
        | obj tf =>
          have hme : mergeJson (Json.obj tf) (Json.obj uf) =
              Json.obj (mergeOld tf uf ++ uf.filter (fun kv => (findVal tf kv.1).isNone)) := by
            simp [mergeJson]
          rw [hme]
          simp only [getPath, findVal_mergeFields]
          cases ht : findVal tf k with
          | none =>
            simp only [ht, hu]
            simpa [getPath, ht] using h
          | some t₁ =>
            have hc' : noClash t₁ u₁ rest = true := by
              simpa [noClash, ht, hu] using hc
            simp only [ht, hu]
            have hrec := ih t₁ u₁ uv h hc'
            simpa [getPath, ht] using hrec
        | arr ta => exact absurd hc (by simp [noClash])
        | null => simpa [mergeJson, getPath, hu] using h
        | bool b => simpa [mergeJson, getPath, hu] using h
        | num n => simpa [mergeJson, getPath, hu] using h
        | str s => simpa [mergeJson, getPath, hu] using h
    | null => simp [getPath] at h
    | bool b => simp [getPath] at h
    | num n => simp [getPath] at h
    | str s => simp [getPath] at h
    | arr es => simp [getPath] at h

/-- C3 part two, generalized: wherever the user payload is absent (and does
not cut the path with a non-object), the template's value at that path
survives into the merged body unchanged. -/
theorem getPath_merge_fill (p : List String) :
    ∀ (t u tv : Json), getPath u p = none → objSpine u p = true →
      getPath t p = some tv → getPath (mergeJson t u) p = some tv := by
  induction p with
  | nil =>
    intro t u tv h _ _
    simp [getPath] at h
  | cons k rest ih =>
    intro t u tv h hs ht
    cases t with
    | obj tf =>
      simp only [getPath] at ht
      cases htf : findVal tf k with
      | none => simp [htf] at ht
      | some t₁ =>
        simp only [htf] at ht
        cases u with
        | obj uf =>
          simp only [getPath] at h
          have hme : mergeJson (Json.obj tf) (Json.obj uf) =
              Json.obj (mergeOld tf uf ++ uf.filter (fun kv => (findVal tf kv.1).isNone)) := by
            simp [mergeJson]
          rw [hme]
          simp only [getPath, findVal_mergeFields]
          cases huf : findVal uf k with
          | none =>
            simp only [htf, huf]
            exact ht
          | some u₁ =>
            simp only [huf] at h
            have hs' : objSpine u₁ rest = true := by
              simpa [objSpine, huf] using hs
            simp only [htf, huf]
            exact ih t₁ u₁ tv h hs' ht
        | arr ua => exact absurd hs (by simp [objSpine])
        | null => exact absurd hs (by simp [objSpine])
        | bool b => exact absurd hs (by simp [objSpine])
        | num n => exact absurd hs (by simp [objSpine])
        | str s => exact absurd hs (by simp [objSpine])
    | arr ta => simp [getPath] at ht
    | null => simp [getPath] at ht
    | bool b => simp [getPath] at ht
    | num n => simp [getPath] at ht
    | str s => simp [getPath] at ht

mutual

/-- Every array occurring anywhere in the value is empty (true of
`CAMPAIGN_DEFAULTS`). -/
def allArraysEmpty : Json → Bool
  | Json.obj fs => allArraysEmptyF fs
  | Json.arr es => es.isEmpty
  | _ => true

/-- `allArraysEmpty` over an object's field list. -/
def allArraysEmptyF : List (String × Json) → Bool
  | [] => true
  | (_, v) :: rest => allArraysEmpty v && allArraysEmptyF rest

end

theorem findVal_allArraysEmptyF {fs : List (String × Json)} {k : String} {v : Json}
    (hall : allArraysEmptyF fs = true) (h : findVal fs k = some v) :
    allArraysEmpty v = true := by
  induction fs with
  | nil => simp [findVal] at h
  | cons kv rest ih =>
    obtain ⟨k₀, v₀⟩ := kv
    simp only [allArraysEmptyF, Bool.and_eq_true] at hall
    by_cases hk : k₀ = k
    · rw [findVal, if_pos hk] at h
      obtain rfl : v₀ = v := by injection h
      exact hall.1
    · rw [findVal, if_neg hk] at h
      exact ih hall.2 h

theorem getPath_allArraysEmpty (p : List String) :
    ∀ (t v : Json), allArraysEmpty t = true → getPath t p = some v →
      allArraysEmpty v = true := by
  induction p with
  | nil =>
    intro t v hall h
    simp only [getPath] at h
    obtain rfl : t = v := by injection h
    exact hall
  | cons k rest ih =>
    intro t v hall h
    cases t with
    | obj fs =>
      simp only [getPath] at h
      cases hf : findVal fs k with
      | none => simp [hf] at h
      | some w =>
        simp only [hf] at h
        have hw : allArraysEmpty w = true :=
          findVal_allArraysEmptyF (by simpa [allArraysEmpty] using hall) hf
        exact ih w v hw h
    | null => simp [getPath] at h
    | bool b => simp [getPath] at h
    | num n => simp [getPath] at h
    | str s => simp [getPath] at h
    | arr es => simp [getPath] at h

theorem defaults_allArraysEmpty : allArraysEmpty CAMPAIGN_DEFAULTS = true := by
  simp [CAMPAIGN_DEFAULTS, allArraysEmpty, allArraysEmptyF]

/-- Merging an array source into any destination allowed by `CAMPAIGN_DEFAULTS`
(whose arrays are all empty) yields the source array wholesale. -/
theorem mergeJson_array_wholesale (tv : Json) (ua : List Json)
    (hall : allArraysEmpty tv = true) : mergeJson tv (Json.arr ua) = Json.arr ua := by
  cases tv with
  | arr l =>
    have hl : l = [] := by simpa [allArraysEmpty, List.isEmpty_iff] using hall
    subst hl
    cases ua with
    | nil => simp [mergeJson, mergeList]
    | cons s ss => simp [mergeJson, mergeList]
  | obj fs => simp [mergeJson]
  | null => simp [mergeJson]
  | bool b => simp [mergeJson]
  | num n => simp [mergeJson]
  | str s => simp [mergeJson]

/-- C3: the body `createCampaign` sends is the user payload deep-merged over
`CAMPAIGN_DEFAULTS`: along any clash-free path (which every typed
`CampaignCreateRequest` payload satisfies against this template), the result
holds the user's value merged over the template's at the same path (so the
result contains every user field); a user scalar wins outright; a field absent
from the user payload at any depth (under an object spine) is filled with the
template's value; and a user array replaces the template's wholesale, because
every array in `CAMPAIGN_DEFAULTS` is empty.  Both inputs are read-only: the
source's lodash call mutates only the fresh `{}` destination, and the
embedding is a pure function of the template and the payload. -/
theorem createCampaign_merge_spec (u : Json) (p : List String) :
    (∀ uv : Json, getPath u p = some uv → noClash CAMPAIGN_DEFAULTS u p = true →
       getPath (createCampaignRequestData u) p =
         some ((getPath CAMPAIGN_DEFAULTS p).elim uv (fun tv => mergeJson tv uv))) ∧
    (∀ uv : Json, getPath u p = some uv → noClash CAMPAIGN_DEFAULTS u p = true →
       isScalar uv = true → getPath (createCampaignRequestData u) p = some uv) ∧
    (∀ tv : Json, getPath u p = none → objSpine u p = true →
       getPath CAMPAIGN_DEFAULTS p = some tv →
       getPath (createCampaignRequestData u) p = some tv) ∧
    (∀ ua : List Json, getPath u p = some (Json.arr ua) →
       noClash CAMPAIGN_DEFAULTS u p = true →
       getPath (createCampaignRequestData u) p = some (Json.arr ua)) := by
  have hbody : createCampaignRequestData u = mergeJson CAMPAIGN_DEFAULTS u := by
    unfold createCampaignRequestData
    rw [mergeJson_emptyDest]
  refine ⟨?_, ?_, ?_, ?_⟩
  · intro uv h hc
    rw [hbody]
    exact getPath_merge_user p CAMPAIGN_DEFAULTS u uv h hc
  · intro uv h hc hs
    rw [hbody, getPath_merge_user p CAMPAIGN_DEFAULTS u uv h hc]
    cases ht : getPath CAMPAIGN_DEFAULTS p with
    | none => simp
    | some tv => simp [mergeJson_scalar tv uv hs]
  · intro tv h hs ht
    rw [hbody]
    exact getPath_merge_fill p CAMPAIGN_DEFAULTS u tv h hs ht
  · intro ua h hc
    rw [hbody, getPath_merge_user p CAMPAIGN_DEFAULTS u (Json.arr ua) h hc]
    cases ht : getPath CAMPAIGN_DEFAULTS p with
    | none => simp
    | some tv =>
      have htv : allArraysEmpty tv = true :=
        getPath_allArraysEmpty p CAMPAIGN_DEFAULTS tv defaults_allArraysEmpty ht
      simp [mergeJson_array_wholesale tv ua htv]

/-- C3 witness: merging `{general_information:{name:"X"},
budget:{max_bid:1,budget:10}, categories:{list:[5]}}` over the defaults keeps
the user's `name`, `max_bid` and wholesale `list`, and fills
`general_information.adult` from the template. -/
theorem createCampaign_merge_spec_witness :
    getPath (createCampaignRequestData (Json.obj
        [("general_information", Json.obj [("name", Json.str "X")]),
         ("budget", Json.obj [("max_bid", Json.num 1), ("budget", Json.num 10)]),
         ("categories", Json.obj [("list", Json.arr [Json.num 5])])]))
      ["general_information", "name"] = some (Json.str "X") ∧
    getPath (createCampaignRequestData (Json.obj
        [("general_information", Json.obj [("name", Json.str "X")]),
         ("budget", Json.obj [("max_bid", Json.num 1), ("budget", Json.num 10)]),
         ("categories", Json.obj [("list", Json.arr [Json.num 5])])]))
      ["general_information", "adult"] = some (Json.bool false) ∧
    getPath (createCampaignRequestData (Json.obj
        [("general_information", Json.obj [("name", Json.str "X")]),
         ("budget", Json.obj [("max_bid", Json.num 1), ("budget", Json.num 10)]),
         ("categories", Json.obj [("list", Json.arr [Json.num 5])])]))
      ["budget", "max_bid"] = some (Json.num 1) ∧
    getPath (createCampaignRequestData (Json.obj
        [("general_information", Json.obj [("name", Json.str "X")]),
         ("budget", Json.obj [("max_bid", Json.num 1), ("budget", Json.num 10)]),
         ("categories", Json.obj [("list", Json.arr [Json.num 5])])]))
      ["categories", "list"] = some (Json.arr [Json.num 5]) :=
  ⟨(createCampaign_merge_spec _ ["general_information", "name"]).2.1
      (Json.str "X") rfl rfl rfl,
   (createCampaign_merge_spec _ ["general_information", "adult"]).2.2.1
      (Json.bool false) rfl rfl rfl,
   (createCampaign_merge_spec _ ["budget", "max_bid"]).2.1
      (Json.num 1) rfl rfl rfl,
   (createCampaign_merge_spec _ ["categories", "list"]).2.2.2
      [Json.num 5] rfl rfl⟩

/-- C1 witness: at the timeout event, the handler performs exactly one
settlement. -/
theorem makeRequest_settles_exactly_once_witness :
    (makeRequestOutcome NetEvent.timeout).settles.length = 1 :=
  (makeRequest_settles_exactly_once NetEvent.timeout).1

/-- C8 witness: a concrete connection failure and a concrete parse failure,
each rejecting with the status-500 single-message shape. -/
theorem makeRequest_conn_and_parse_errors_reject_500_witness :
    makeRequestOutcome (NetEvent.connError "socket hang up") =
      { settles := [SettleAction.rejectWith { status := Json.num 500,
                                              messages := Json.obj [("error", Json.str "socket hang up")] }],
        destroyed := false } ∧
    makeRequestOutcome (NetEvent.received (Except.error "SyntaxError: Unexpected token")) =
      { settles := [SettleAction.rejectWith { status := Json.num 500,
                                              messages := Json.obj [("error", Json.str "Invalid JSON response: SyntaxError: Unexpected token")] }],
        destroyed := false } :=
  makeRequest_conn_and_parse_errors_reject_500 "socket hang up" "SyntaxError: Unexpected token"
